import Mathlib

/-!
Verification of the sink-folder ingestion service
(`fittrackee/workouts/services/sink_folder_service.py`).

Paths are modelled as their component lists (`pathlib.Path.parts`), the
filesystem as a functional store of files and directories, and the
collaborators (user lookup, sport lookup, import service) as an explicit
environment record.  Each definition mirrors the corresponding Python
function; nondeterministic inputs of the source (current timestamps) are
passed in as parameters.
-/

/-- A filesystem path, as its list of components (`pathlib.Path.parts`). -/
abbrev PathT := List String

/-- Source constant `DEFAULT_SPORT_ID = 1`. -/
def DEFAULT_SPORT_ID : Int := 1

/-- Source constant `SINK_FOLDER_NAME = "sink"`. -/
def SINK_FOLDER_NAME : String := "sink"

/-- Source constant `PROCESSED_FOLDER_NAME = "processed"`. -/
def PROCESSED_FOLDER_NAME : String := "processed"

/-- Source constant `ERROR_FOLDER_NAME = "error"`. -/
def ERROR_FOLDER_NAME : String := "error"

/-- Modelled from the spec: the configured set of allowed activity-file
extensions (source constant `WORKOUT_ALLOWED_EXTENSIONS`, which lives in
`fittrackee/workouts/constants.py`, outside the given source tree; the
module docstring and the spec both list FIT, GPX, TCX, KML, KMZ). -/
def WORKOUT_ALLOWED_EXTENSIONS : List String := ["fit", "gpx", "tcx", "kml", "kmz"]

/-- Python whitespace characters stripped by `int(str)`. -/
def isPySpace (c : Char) : Bool :=
  c = ' ' || c = '\t' || c = '\n' || c = '\r' || c = '\x0b' || c = '\x0c'

/-- Run of decimal digits possibly separated by single underscores, as accepted
after the first digit by Python's `int`; `acc` is the value read so far and
`prevUnderscore` records whether the previous char was an underscore. -/
def pyDigitRunAux (acc : Nat) (prevUnderscore : Bool) : List Char → Option Nat
  | [] => if prevUnderscore then none else some acc
  | c :: rest =>
    if c.isDigit then pyDigitRunAux (acc * 10 + (c.toNat - 48)) false rest
    else if c = '_' then
      if prevUnderscore then none else pyDigitRunAux acc true rest
    else none

/-- A nonempty digit run (first char must be a digit). -/
def pyDigitRun : List Char → Option Nat
  | [] => none
  | c :: rest => if c.isDigit then pyDigitRunAux (c.toNat - 48) false rest else none

/-- Model of Python's `int(s)` on decimal strings: strip whitespace, optional
sign, then digits with optional single underscore separators. -/
def pyInt (s : String) : Option Int :=
  let l := ((s.data.dropWhile isPySpace).reverse.dropWhile isPySpace).reverse
  match l with
  | '+' :: rest => (pyDigitRun rest).map Int.ofNat
  | '-' :: rest => (pyDigitRun rest).map (fun n => -(Int.ofNat n))
  | _ => (pyDigitRun l).map Int.ofNat

/-- Index of the last `'.'` in a character list, if any. -/
def lastDotIdx (l : List Char) : Option Nat :=
  (List.range l.length).foldl
    (fun acc i => if l.getD i ' ' = '.' then some i else acc) none

/-- Model of `os.path.splitext`: split a filename into root and extension at
the last dot, ignoring leading dots. -/
def splitext (filename : String) : String × String :=
  let lead := filename.data.takeWhile (fun c => c = '.')
  let rest := filename.data.dropWhile (fun c => c = '.')
  match lastDotIdx rest with
  | none => (filename, "")
  | some i =>
    if 0 < i then (String.mk (lead ++ rest.take i), String.mk (rest.drop i))
    else (filename, "")

/-- Model of `pathlib.PurePath.suffix` of a single component: `name[i:]` for
the last dot index `i` when `0 < i < len(name) - 1`, else empty. -/
def pathSuffix (name : String) : String :=
  let cs := name.data
  match lastDotIdx cs with
  | none => ""
  | some i => if 0 < i ∧ i + 1 < cs.length then String.mk (cs.drop i) else ""

/-- ASCII lowering of a string (`str.lower` on extension characters). -/
def lowerStr (s : String) : String := String.mk (s.data.map Char.toLower)

/-- The extension computed by the handler and the sweep:
`Path(filename).suffix.lower().lstrip(".")`. -/
def fileExtension (filename : String) : String :=
  String.mk ((lowerStr (pathSuffix filename)).data.dropWhile (fun c => c = '.'))

/-- Whether a filename has an allowed workout extension. -/
def extAllowedB (filename : String) : Bool :=
  WORKOUT_ALLOWED_EXTENSIONS.contains (fileExtension filename)

/-- A FitTrackee user row, with the fields the service reads:
`username` and `suspended_at` (a timestamp when suspended, else `NULL`). -/
structure User where
  username : String
  suspended_at : Option String
  deriving Repr, DecidableEq

/-- Model of Python `tuple.index` returning an option instead of raising:
index of the first occurrence, counting from `k`. -/
def indexOfFrom : PathT → String → Nat → Option Nat
  | [], _, _ => none
  | x :: rest, a, k => if x = a then some k else indexOfFrom rest a (k + 1)

/-- Index of the first occurrence of `a` in `parts` (`tuple.index`, with
`none` for the raised `ValueError`). -/
def tupleIndex (parts : PathT) (a : String) : Option Nat := indexOfFrom parts a 0

/-- Embedding of `WorkoutFileHandler._parse_file_path`: locate the `sink`
marker, read username and sport id from the following components, then look
the username up in the user store (`User.query.filter_by(username=...)`).
Raised `ValueError`s become `Except.error` with the source's messages. -/
def parseFilePath (store : String → Option User) (parts : PathT) :
    Except String (Option User × Int) :=
  match tupleIndex parts SINK_FOLDER_NAME with
  | none => .error ("'" ++ SINK_FOLDER_NAME ++ "' not found in path")
  | some sinkIndex =>
    let remaining := parts.drop (sinkIndex + 1)
    if remaining.length < 2 then
      .error "Invalid path structure. Expected: sink/username/file or sink/username/sport_id/file"
    else
      let username := remaining.getD 0 ""
      let sportId : Int :=
        if remaining.length = 2 then DEFAULT_SPORT_ID
        else if remaining.length = 3 then
          match pyInt (remaining.getD 1 "") with
          | some n => n
          | none => DEFAULT_SPORT_ID
        else DEFAULT_SPORT_ID
      .ok (store username, sportId)

/-- The store-independent address-extraction part of `_parse_file_path`
(owner identifier and sport id), written to compare with the full parser:
it is the same computation with the final user lookup left out. -/
def parseAddress (parts : PathT) : Except String (String × Int) :=
  match tupleIndex parts SINK_FOLDER_NAME with
  | none => .error ("'" ++ SINK_FOLDER_NAME ++ "' not found in path")
  | some sinkIndex =>
    let remaining := parts.drop (sinkIndex + 1)
    if remaining.length < 2 then
      .error "Invalid path structure. Expected: sink/username/file or sink/username/sport_id/file"
    else
      let username := remaining.getD 0 ""
      let sportId : Int :=
        if remaining.length = 2 then DEFAULT_SPORT_ID
        else if remaining.length = 3 then
          match pyInt (remaining.getD 1 "") with
          | some n => n
          | none => DEFAULT_SPORT_ID
        else DEFAULT_SPORT_ID
      .ok (username, sportId)

/-- Embedding of the username extraction at the top of
`WorkoutFileHandler._move_to_error`: best-effort owner from the path, with
`"unknown"` when the marker is missing or nothing follows it. -/
def extractErrorUsername (parts : PathT) : String :=
  match tupleIndex parts SINK_FOLDER_NAME with
  | none => "unknown"
  | some sinkIndex =>
    if parts.length > sinkIndex + 1 then parts.getD (sinkIndex + 1) "" else "unknown"

/-- Nonempty prefixes of a path, shortest first: the directories
`os.makedirs` creates (or checks) on the way to `p`. -/
def prefixesOf (p : PathT) : List PathT :=
  (List.range p.length).map (fun i => p.take (i + 1))

/-- A filesystem state: a functional store of file contents and of existing
directories, plus an oracle for paths whose opening for write raises
(permissions, disk errors) — the environment-dependent failures of the OS. -/
structure FS where
  files : PathT → Option String
  dirs : PathT → Bool
  failWrite : PathT → Bool

/-- `os.path.exists`. -/
def FS.fsExists (fs : FS) (p : PathT) : Bool := (fs.files p).isSome || fs.dirs p

/-- `os.makedirs(p, exist_ok=True)`: fails when some prefix of `p` exists as
a regular file, otherwise records all prefixes as directories. -/
def FS.makedirs (fs : FS) (p : PathT) : Except String FS :=
  if (prefixesOf p).any (fun q => (fs.files q).isSome) then .error "FileExistsError"
  else .ok { fs with dirs := fun q => fs.dirs q || (prefixesOf p).contains q }

/-- `shutil.move(src, dst)`: fails when the source file is missing or the
destination directory does not exist; otherwise renames (overwriting an
existing destination file, as `os.rename` does on POSIX). -/
def FS.move (fs : FS) (src dst : PathT) : Except String FS :=
  match fs.files src with
  | none => .error "FileNotFoundError"
  | some content =>
    if fs.dirs dst.dropLast then
      .ok { fs with
        files := fun q => if q = dst then some content else if q = src then none else fs.files q }
    else .error "FileNotFoundError"

/-- `open(p, "w")` followed by a full write: fails on the oracle's paths or
when the parent directory is missing. -/
def FS.write (fs : FS) (p : PathT) (content : String) : Except String FS :=
  if fs.failWrite p then .error "PermissionError"
  else if fs.dirs p.dropLast then
    .ok { fs with files := fun q => if q = p then some content else fs.files q }
  else .error "FileNotFoundError"

/-- Whether an `Except` result is a normal return (no exception escaped). -/
def isOkE {α : Type} : Except String α → Bool
  | .ok _ => true
  | .error _ => false

/-- The file store after a routing call, for reading results of concrete
runs; an escaped exception yields no readable state. -/
def filesAfter (r : Except String FS) (p : PathT) : Option String :=
  match r with
  | .ok fs => fs.files p
  | .error _ => none

/-- Embedding of `WorkoutFileHandler._move_file`: ensure the destination
folder `sink/destType/username` exists (`os.makedirs` is *outside* the
`try`), disambiguate the name with `nowStamp`
(`strftime("%Y%m%d_%H%M%S")`, inserted before the extension) when the
destination already exists, then `shutil.move` inside a `try` whose failure
is only logged.  Returns the state and the attempted destination path. -/
def moveFile (sink : PathT) (fs : FS) (filePath : PathT)
    (destType username nowStamp : String) : Except String (FS × PathT) :=
  let destFolder := sink ++ [destType, username]
  match fs.makedirs destFolder with
  | .error e => .error e
  | .ok fsA =>
    let filename := filePath.getLastD ""
    let destPath0 := destFolder ++ [filename]
    let destPath :=
      if fsA.fsExists destPath0 then
        let ne := splitext filename
        destFolder ++ [ne.1 ++ "_" ++ nowStamp ++ ne.2]
      else destPath0
    match fsA.move filePath destPath with
    | .error _ => .ok (fsA, destPath)
    | .ok fsB => .ok (fsB, destPath)

/-- The sidecar text written by `_move_to_error`:
`f"Timestamp: {timestamp}\nError: {error_msg}\n"`. -/
def sidecarContent (iso errorMsg : String) : String :=
  "Timestamp: " ++ iso ++ "\n" ++ "Error: " ++ errorMsg ++ "\n"

/-- Embedding of `WorkoutFileHandler._move_to_error`: extract a best-effort
username from the path, move the file into `error/{username}/`, then write
the diagnostic sidecar at `{destination}/{filename}.error` inside a `try`
whose failure is only logged (`iso` is `datetime.now(utc).isoformat()`). -/
def moveToError (sink : PathT) (fs : FS) (filePath : PathT)
    (errorMsg iso nowStamp : String) : Except String FS :=
  let username := extractErrorUsername filePath
  match moveFile sink fs filePath ERROR_FOLDER_NAME username nowStamp with
  | .error e => .error e
  | .ok (fs1, _) =>
    let destFolder := sink ++ [ERROR_FOLDER_NAME, username]
    let filename := filePath.getLastD ""
    let errorDest := destFolder ++ [filename ++ ".error"]
    match fs1.makedirs destFolder with
    | .error _ => .ok fs1
    | .ok fsB =>
      match fsB.write errorDest (sidecarContent iso errorMsg) with
      | .error _ => .ok fsB
      | .ok fs2 => .ok fs2

/-- Embedding of `WorkoutFileHandler._move_to_processed`. -/
def moveToProcessed (sink : PathT) (fs : FS) (filePath : PathT)
    (username nowStamp : String) : Except String (FS × PathT) :=
  moveFile sink fs filePath PROCESSED_FOLDER_NAME username nowStamp

/-- Verdict of the import collaborator
(`WorkoutsFromFileCreationService.process`): a list of created workouts and
the stringified `errored_workouts` payload, or a raised exception. -/
inductive ImportResult where
  | returns (workouts : List String) (erroredWorkouts : String)
  | raises (msg : String)

/-- The collaborators `_process_file` consults: the user store, the sport
store (`Sport.query.filter_by(id=...)`, as an existence predicate) and
the import service, keyed by username, sport id, file content, filename. -/
structure Env where
  userStore : String → Option User
  sportStore : Int → Bool
  importFile : String → Int → String → String → ImportResult

/-- Terminal resolution of one file inside `_process_file`: either an error
with its diagnostic message (routed via `_move_to_error`) or a success with
the owning username (routed via `_move_to_processed`). -/
inductive Resolution where
  | errored (msg : String)
  | processedRes (username : String)
  deriving Repr, DecidableEq

/-- Embedding of the decision sequence of `WorkoutFileHandler._process_file`:
parse the path, check the user was found, check the sport exists, check the
user is not suspended, read the file, and run the import collaborator. -/
def processFileOutcome (env : Env) (fs : FS) (parts : PathT) : Resolution :=
  match parseFilePath env.userStore parts with
  | .error e => .errored e
  | .ok (none, _) => .errored "Could not determine user"
  | .ok (some user, sportId) =>
    if env.sportStore sportId then
      if user.suspended_at.isSome then
        .errored ("User " ++ user.username ++ " is suspended")
      else
        match fs.files parts with
        | none => .errored "FileNotFoundError"
        | some content =>
          match env.importFile user.username sportId content (parts.getLastD "") with
          | .returns (_ :: _) _ => .processedRes user.username
          | .returns [] erroredWorkouts => .errored erroredWorkouts
          | .raises msg => .errored msg
    else .errored ("Sport ID " ++ toString sportId ++ " not found")

/-- One file end to end: `_process_file`'s resolution followed by the
routing move it performs. -/
def processAndRoute (env : Env) (sink : PathT) (fs : FS) (parts : PathT)
    (iso nowStamp : String) : Except String FS :=
  match processFileOutcome env fs parts with
  | .errored msg => moveToError sink fs parts msg iso nowStamp
  | .processedRes uname => (moveToProcessed sink fs parts uname nowStamp).map (fun r => r.1)

/-- A directory tree under the sink folder: named subdirectories and the
names of the plain files at this level. -/
inductive DirTree where
  | node (subdirs : List (String × DirTree)) (files : List String)

/-- The `dirs[:]` filter of `process_existing_files`: a directory survives
the walk when its name is neither `processed` nor `error`. -/
def keepDir (d : String) : Bool :=
  !(d = PROCESSED_FOLDER_NAME || d = ERROR_FOLDER_NAME)

mutual

/-- Paths of the files visited by `os.walk` with the sweep's `dirs[:]`
pruning, relative to the walked root, in walk order (top-down: the files of
a directory first, then its surviving subdirectories). -/
def walkTree : DirTree → List PathT
  | .node subdirs files => files.map (fun f => [f]) ++ walkSubdirs subdirs

/-- Walk of a pruned subdirectory list. -/
def walkSubdirs : List (String × DirTree) → List PathT
  | [] => []
  | (name, sub) :: rest =>
    (if keepDir name then (walkTree sub).map (fun p => name :: p) else [])
      ++ walkSubdirs rest

end

mutual

/-- All file paths of a tree, without any pruning. -/
def allTree : DirTree → List PathT
  | .node subdirs files => files.map (fun f => [f]) ++ allSubdirs subdirs

/-- All file paths under a subdirectory list. -/
def allSubdirs : List (String × DirTree) → List PathT
  | [] => []
  | (name, sub) :: rest =>
    (allTree sub).map (fun p => name :: p) ++ allSubdirs rest

end

/-- The files on which the sweep invokes `handler._process_file`: the walked
files whose extension is allowed. -/
def sweepProcessed (t : DirTree) : List PathT :=
  (walkTree t).filter (fun p => extAllowedB (p.getLastD ""))

/-- Embedding of `SinkFolderWatcher.process_existing_files`: the returned
count. -/
def processExistingFiles (t : DirTree) : Nat := (sweepProcessed t).length

/-- Embedding of `WorkoutFileHandler.on_created`'s guard: whether the
handler forwards a creation event to `_process_file` (directory events and
disallowed extensions are dropped; no path-based filtering occurs). -/
def onCreatedProcesses (isDirectory : Bool) (srcPath : PathT) : Bool :=
  if isDirectory then false
  else extAllowedB (srcPath.getLastD "")

/-- Split a character list at newlines (auxiliary for `textLines`). -/
def splitLinesAux (acc : List Char) : List Char → List (List Char)
  | [] => [acc.reverse]
  | c :: rest =>
    if c = '\n' then acc.reverse :: splitLinesAux [] rest
    else splitLinesAux (c :: acc) rest

/-- The lines of a text file's content, in the usual convention: split at
newlines, with a trailing newline closing the last line rather than opening
an empty one. -/
def textLines (s : String) : List String :=
  let l := splitLinesAux [] s.data
  (if l.getLast? = some [] then l.dropLast else l).map String.mk

/-- Whether `needle` is a prefix of `hay`. -/
def listIsPrefixOf : List Char → List Char → Bool
  | [], _ => true
  | _ :: _, [] => false
  | a :: as, b :: bs => a = b && listIsPrefixOf as bs

/-- Whether `needle` occurs contiguously in `hay`. -/
def occursIn (needle : List Char) : List Char → Bool
  | [] => needle.isEmpty
  | c :: rest => listIsPrefixOf needle (c :: rest) || occursIn needle rest

/-- Substring containment on strings. -/
def strContains (hay needle : String) : Bool := occursIn needle.data hay.data

/-- A user store in which every username resolves to an active user. -/
def store0 : String → Option User := fun u => some { username := u, suspended_at := none }

/-- The empty user store: no username resolves. -/
def storeNone : String → Option User := fun _ => none

/-- An environment in which every user exists and every sport exists, and
the import collaborator creates one workout. -/
def envAllOk : Env :=
  { userStore := store0, sportStore := fun _ => true,
    importFile := fun _ _ _ _ => .returns ["w1"] "" }

/-- An environment in which no username resolves to a user. -/
def envNoUser : Env :=
  { userStore := storeNone, sportStore := fun _ => true,
    importFile := fun _ _ _ _ => .returns ["w1"] "" }

/-- An environment in which users exist but no sport id exists. -/
def envNoSport : Env :=
  { userStore := store0, sportStore := fun _ => false,
    importFile := fun _ _ _ _ => .returns ["w1"] "" }

/-- A filesystem holding one file, with the sink folder as only directory and
no write failures. -/
def fsSingle (p : PathT) (content : String) : FS :=
  { files := fun q => if q = p then some content else none,
    dirs := fun q => q = ["sink"],
    failWrite := fun _ => false }

/-- A filesystem in which a stray regular file occupies the path of the
error destination directory `sink/error/bob`, so that `os.makedirs` raises. -/
def fsBlocked : FS :=
  { files := fun q => if q = ["sink", "bob", "f.fit"] then some "x"
      else if q = ["sink", "error", "bob"] then some "junk" else none,
    dirs := fun q => q = ["sink"] || q = ["sink", "bob"],
    failWrite := fun _ => false }

/-- A filesystem holding two distinct files that share the name `f.fit`. -/
def fsTwo : FS :=
  { files := fun q => if q = ["sink", "bob", "f.fit"] then some "one"
      else if q = ["sink", "bob", "5", "f.fit"] then some "two" else none,
    dirs := fun q => q = ["sink"] || q = ["sink", "bob"] || q = ["sink", "bob", "5"],
    failWrite := fun _ => false }

/-! Helper lemmas about the filesystem primitives. -/

theorem mem_prefixesOf_length {q p : PathT} (h : q ∈ prefixesOf p) : q.length ≤ p.length := by
  unfold prefixesOf at h
  obtain ⟨i, hi, rfl⟩ := List.mem_map.mp h
  simp [List.length_take]

theorem self_mem_prefixesOf {p : PathT} (h : p ≠ []) : p ∈ prefixesOf p := by
  unfold prefixesOf
  refine List.mem_map.mpr ⟨p.length - 1, ?_, ?_⟩
  · have : 0 < p.length := List.length_pos.mpr h
    simpa using Nat.sub_lt this Nat.one_pos
  · have : 0 < p.length := List.length_pos.mpr h
    have heq : p.length - 1 + 1 = p.length := by omega
    rw [heq, List.take_length]

theorem contains_iff_mem {l : List PathT} {q : PathT} : l.contains q = true ↔ q ∈ l := by
  simp [List.contains, List.elem_iff]

theorem strne_of_length {a b : String} (h : a.length ≠ b.length) : a ≠ b := by
  intro hab
  exact h (by rw [hab])

theorem append_singleton_ne_of_last {D : PathT} {x y : String} (h : x ≠ y) :
    D ++ [x] ≠ D ++ [y] := by
  intro hab
  exact h (by simpa using List.append_cancel_left hab)

theorem getLastD_append_singleton (l : PathT) (a d : String) :
    (l ++ [a]).getLastD d = a := by
  simp [List.getLastD_concat]

theorem splitext_concat (f : String) : (splitext f).1 ++ (splitext f).2 = f := by
  unfold splitext
  dsimp only
  split
  · simp
  · next i h =>
    split
    · have hd : (String.mk (f.data.takeWhile (fun c => c = '.') ++
          (f.data.dropWhile (fun c => c = '.')).take i)) ++
          (String.mk ((f.data.dropWhile (fun c => c = '.')).drop i)) =
          String.mk ((f.data.takeWhile (fun c => c = '.') ++
            (f.data.dropWhile (fun c => c = '.')).take i) ++
            (f.data.dropWhile (fun c => c = '.')).drop i) := rfl
      rw [hd, List.append_assoc, List.take_append_drop,
        List.takeWhile_append_dropWhile]
    · simp

theorem moveFile_clean (sink src : PathT) (fs : FS) (dt u now c : String)
    (hsrc : fs.files src = some c)
    (hmk : ∀ q ∈ prefixesOf (sink ++ [dt, u]), fs.files q = none)
    (hne : fs.files (sink ++ [dt, u] ++ [src.getLastD ""]) = none)
    (hnd : fs.dirs (sink ++ [dt, u] ++ [src.getLastD ""]) = false) :
    moveFile sink fs src dt u now = .ok
      ({ files := fun q => if q = sink ++ [dt, u] ++ [src.getLastD ""] then some c
            else if q = src then none else fs.files q,
         dirs := fun q => fs.dirs q || (prefixesOf (sink ++ [dt, u])).contains q,
         failWrite := fs.failWrite },
       sink ++ [dt, u] ++ [src.getLastD ""]) := by
  have hnenil : sink ++ [dt, u] ≠ [] := by
    intro h0
    have h1 := congrArg List.length h0
    simp at h1
  have hany : (prefixesOf (sink ++ [dt, u])).any (fun q => (fs.files q).isSome) = false := by
    rw [List.any_eq_false]
    intro q hq
    simp [hmk q hq]
  have hcont : ((prefixesOf (sink ++ [dt, u])).contains
      (sink ++ [dt, u] ++ [src.getLastD ""])) = false := by
    rw [Bool.eq_false_iff]
    intro hc
    have hm := contains_iff_mem.mp hc
    have hL := mem_prefixesOf_length hm
    simp at hL
  have hself : (prefixesOf (sink ++ [dt, u])).contains (sink ++ [dt, u]) = true :=
    contains_iff_mem.mpr (self_mem_prefixesOf hnenil)
  unfold moveFile FS.makedirs
  dsimp only
  rw [if_neg (by simp [hany])]
  dsimp only
  rw [if_neg (by
    simp only [FS.fsExists, hne, hnd, Option.isSome_none, Bool.or_false, Bool.false_or]
    simp
    intro hm
    have hL := mem_prefixesOf_length hm
    simp at hL)]
  unfold FS.move
  dsimp only
  rw [hsrc]
  dsimp only
  rw [if_pos (by
    rw [List.dropLast_concat]
    simp only [Bool.or_eq_true, decide_eq_true_eq]
    exact Or.inr hself)]

theorem moveFile_collision (sink src : PathT) (fs : FS) (dt u now c : String)
    (hsrc : fs.files src = some c)
    (hmk : ∀ q ∈ prefixesOf (sink ++ [dt, u]), fs.files q = none)
    (hex : (fs.files (sink ++ [dt, u] ++ [src.getLastD ""])).isSome = true) :
    moveFile sink fs src dt u now = .ok
      ({ files := fun q => if q = sink ++ [dt, u] ++
            [(splitext (src.getLastD "")).1 ++ "_" ++ now ++ (splitext (src.getLastD "")).2]
            then some c else if q = src then none else fs.files q,
         dirs := fun q => fs.dirs q || (prefixesOf (sink ++ [dt, u])).contains q,
         failWrite := fs.failWrite },
       sink ++ [dt, u] ++
         [(splitext (src.getLastD "")).1 ++ "_" ++ now ++ (splitext (src.getLastD "")).2]) := by
  have hnenil : sink ++ [dt, u] ≠ [] := by
    intro h0
    have h1 := congrArg List.length h0
    simp at h1
  have hany : (prefixesOf (sink ++ [dt, u])).any (fun q => (fs.files q).isSome) = false := by
    rw [List.any_eq_false]
    intro q hq
    simp [hmk q hq]
  have hself : (prefixesOf (sink ++ [dt, u])).contains (sink ++ [dt, u]) = true :=
    contains_iff_mem.mpr (self_mem_prefixesOf hnenil)
  unfold moveFile FS.makedirs
  dsimp only
  rw [if_neg (by simp [hany])]
  dsimp only
  rw [if_pos (by
    simp only [FS.fsExists, Bool.or_eq_true]
    exact Or.inl (by simpa using hex))]
  unfold FS.move
  dsimp only
  rw [hsrc]
  dsimp only
  rw [if_pos (by
    rw [List.dropLast_concat]
    simp only [Bool.or_eq_true]
    exact Or.inr hself)]

theorem moveToError_clean (sink filePath : PathT) (fs : FS) (msg iso now c : String)
    (hsrc : fs.files filePath = some c)
    (hmk : ∀ q ∈ prefixesOf (sink ++ [ERROR_FOLDER_NAME, extractErrorUsername filePath]),
      fs.files q = none)
    (hne : fs.files (sink ++ [ERROR_FOLDER_NAME, extractErrorUsername filePath] ++
      [filePath.getLastD ""]) = none)
    (hnd : fs.dirs (sink ++ [ERROR_FOLDER_NAME, extractErrorUsername filePath] ++
      [filePath.getLastD ""]) = false) :
    isOkE (moveToError sink fs filePath msg iso now) = true ∧
    filesAfter (moveToError sink fs filePath msg iso now)
      (sink ++ [ERROR_FOLDER_NAME, extractErrorUsername filePath] ++
        [filePath.getLastD ""]) = some c ∧
    filesAfter (moveToError sink fs filePath msg iso now) filePath = none ∧
    (fs.failWrite (sink ++ [ERROR_FOLDER_NAME, extractErrorUsername filePath] ++
        [filePath.getLastD "" ++ ".error"]) = false →
      filesAfter (moveToError sink fs filePath msg iso now)
        (sink ++ [ERROR_FOLDER_NAME, extractErrorUsername filePath] ++
          [filePath.getLastD "" ++ ".error"]) = some (sidecarContent iso msg)) ∧
    (fs.failWrite (sink ++ [ERROR_FOLDER_NAME, extractErrorUsername filePath] ++
        [filePath.getLastD "" ++ ".error"]) = true →
      filesAfter (moveToError sink fs filePath msg iso now)
        (sink ++ [ERROR_FOLDER_NAME, extractErrorUsername filePath] ++
          [filePath.getLastD "" ++ ".error"]) =
        fs.files (sink ++ [ERROR_FOLDER_NAME, extractErrorUsername filePath] ++
          [filePath.getLastD "" ++ ".error"])) := by
  have hnenil : sink ++ [ERROR_FOLDER_NAME, extractErrorUsername filePath] ≠ [] := by
    intro h0
    have h1 := congrArg List.length h0
    simp at h1
  have hfne : filePath.getLastD "" ++ ".error" ≠ filePath.getLastD "" := by
    apply strne_of_length
    rw [String.length_append]
    have h6 : (".error" : String).length = 6 := rfl
    omega
  have hEneD : sink ++ [ERROR_FOLDER_NAME, extractErrorUsername filePath] ++
      [filePath.getLastD "" ++ ".error"] ≠
      sink ++ [ERROR_FOLDER_NAME, extractErrorUsername filePath] ++ [filePath.getLastD ""] :=
    append_singleton_ne_of_last hfne
  have hpneD : filePath ≠ sink ++ [ERROR_FOLDER_NAME, extractErrorUsername filePath] ++
      [filePath.getLastD ""] := by
    intro h0
    rw [h0] at hsrc
    rw [hsrc] at hne
    cases hne
  have hpneE : filePath ≠ sink ++ [ERROR_FOLDER_NAME, extractErrorUsername filePath] ++
      [filePath.getLastD "" ++ ".error"] := by
    intro h0
    have h1 : filePath.getLastD "" = filePath.getLastD "" ++ ".error" := by
      conv_lhs => rw [h0]
      rw [getLastD_append_singleton]
    exact hfne h1.symm
  have hrunMf := moveFile_clean sink filePath fs ERROR_FOLDER_NAME
    (extractErrorUsername filePath) now c hsrc hmk hne hnd
  unfold moveToError
  dsimp only
  rw [hrunMf]
  dsimp only
  have hany2 : (prefixesOf (sink ++ [ERROR_FOLDER_NAME, extractErrorUsername filePath])).any
      (fun q => (if q = sink ++ [ERROR_FOLDER_NAME, extractErrorUsername filePath] ++
          [filePath.getLastD ""] then some c
        else if q = filePath then none else fs.files q).isSome) = false := by
    rw [List.any_eq_false]
    intro q hq
    have h1 : q ≠ sink ++ [ERROR_FOLDER_NAME, extractErrorUsername filePath] ++
        [filePath.getLastD ""] := by
      intro h0
      have hL := mem_prefixesOf_length hq
      rw [h0] at hL
      simp at hL
    by_cases h2 : q = filePath
    · rw [if_neg h1, if_pos h2]
      simp
    · rw [if_neg h1, if_neg h2, hmk q hq]
      simp
  unfold FS.makedirs
  dsimp only
  rw [if_neg (by rw [hany2]; simp)]
  dsimp only
  unfold FS.write
  dsimp only
  by_cases hw : fs.failWrite (sink ++ [ERROR_FOLDER_NAME, extractErrorUsername filePath] ++
      [filePath.getLastD "" ++ ".error"]) = true
  · rw [if_pos hw]
    dsimp only [isOkE, filesAfter]
    refine ⟨rfl, ?_, ?_, ?_, ?_⟩
    · rw [if_pos rfl]
    · rw [if_neg hpneD, if_pos rfl]
    · intro hx
      rw [hx] at hw
      cases hw
    · intro _
      rw [if_neg hEneD, if_neg (Ne.symm hpneE)]
  · rw [if_neg hw]
    rw [if_pos (by
      rw [List.dropLast_concat]
      simp only [Bool.or_eq_true]
      exact Or.inl (Or.inr (contains_iff_mem.mpr (self_mem_prefixesOf hnenil))))]
    dsimp only [isOkE, filesAfter]
    refine ⟨rfl, ?_, ?_, ?_, ?_⟩
    · rw [if_neg (Ne.symm hEneD), if_pos rfl]
    · rw [if_neg hpneE, if_neg hpneD, if_pos rfl]
    · intro _
      rw [if_pos rfl]
    · intro hx
      exact absurd hx hw

/-! Claim C1: owner and category extraction from drop paths. -/

/-- C1: for every file path that contains the root marker segment followed by
at least two further segments, parsing returns the first remaining segment as
the owner identifier (passed to the user lookup), and as category the integer
value of the middle remaining segment when there are exactly three remaining
segments and that segment parses as an integer, and the default category in
every other case. -/
theorem parse_owner_category_correct (store : String → Option User) (parts : PathT) (i : Nat)
    (h1 : tupleIndex parts SINK_FOLDER_NAME = some i)
    (h2 : 2 ≤ (parts.drop (i + 1)).length) :
    parseFilePath store parts = .ok (store ((parts.drop (i + 1)).getD 0 ""),
      if (parts.drop (i + 1)).length = 3 then
        (pyInt ((parts.drop (i + 1)).getD 1 "")).getD DEFAULT_SPORT_ID
      else DEFAULT_SPORT_ID) := by
  unfold parseFilePath
  rw [h1]
  dsimp only
  rw [if_neg (by omega)]
  by_cases h3 : (parts.drop (i + 1)).length = 2
  · have h4 : ¬(parts.drop (i + 1)).length = 3 := by omega
    rw [if_pos h3, if_neg h4]
  · by_cases h4 : (parts.drop (i + 1)).length = 3
    · rw [if_neg h3, if_pos h4, if_pos h4]
      cases hp : pyInt ((parts.drop (i + 1)).getD 1 "") with
      | none => rfl
      | some n => rfl
    · rw [if_neg h3, if_neg h4, if_neg h4]

/-- Witness for C1: the drop path `sink/bob/3/ride.fit` parses to owner `bob`
and category 3. -/
theorem parse_owner_category_correct_witness :
    tupleIndex ["sink", "bob", "3", "ride.fit"] SINK_FOLDER_NAME = some 0 ∧
    2 ≤ ((["sink", "bob", "3", "ride.fit"] : PathT).drop (0 + 1)).length ∧
    parseFilePath store0 ["sink", "bob", "3", "ride.fit"] =
      .ok (some { username := "bob", suspended_at := none }, 3) := by
  refine ⟨by decide, by decide, ?_⟩
  have h := parse_owner_category_correct store0 ["sink", "bob", "3", "ride.fit"] 0
    (by decide) (by decide)
  exact h.trans rfl

/-! Claim C9: purity of the address parser. -/

/-- C9 counterexample: on the very same path, the parser's result differs
between two states of the user-lookup store, because `_parse_file_path` ends
with a database lookup — it is not pure over the path string. -/
theorem parser_store_dependent_cex :
    parseFilePath storeNone ["sink", "bob", "f.fit"] = .ok (none, 1) ∧
    parseFilePath store0 ["sink", "bob", "f.fit"] =
      .ok (some { username := "bob", suspended_at := none }, 1) ∧
    (Except.ok (none, 1) : Except String (Option User × Int)) ≠
      .ok (some { username := "bob", suspended_at := none }, 1) := by
  refine ⟨rfl, rfl, ?_⟩
  intro h
  simp at h

/-- C9 (amended): the address extraction (owner identifier and category) is
determined by the path alone — the full parser factors as the pure address
computation followed by the user lookup, so only the returned user row, never
the owner identifier or category, depends on the store. -/
theorem parser_address_pure_factoring (store : String → Option User) (parts : PathT) :
    parseFilePath store parts = (parseAddress parts).map (fun r => (store r.1, r.2)) := by
  unfold parseFilePath parseAddress
  cases h : tupleIndex parts SINK_FOLDER_NAME with
  | none => rfl
  | some i =>
    dsimp only
    by_cases h2 : (parts.drop (i + 1)).length < 2
    · rw [if_pos h2, if_pos h2]
      rfl
    · rw [if_neg h2, if_neg h2]
      rfl

theorem processAndRoute_errored {env : Env} {sink fs parts iso now msg}
    (h : processFileOutcome env fs parts = .errored msg) :
    processAndRoute env sink fs parts iso now = moveToError sink fs parts msg iso now := by
  unfold processAndRoute
  rw [h]

/-! Claim C2: routing of files whose path fails to parse. -/

/-- C2 counterexample: for the drop `sink/f.fit` parsing fails (only one
segment after the marker), but the file is routed into the error subtree
under the directory named `f.fit` — the best-effort username extracted by
`_move_to_error` — not under `unknown`. -/
theorem parse_failure_unknown_routing_cex :
    parseFilePath storeNone ["sink", "f.fit"] =
      .error "Invalid path structure. Expected: sink/username/file or sink/username/sport_id/file" ∧
    extractErrorUsername ["sink", "f.fit"] = "f.fit" ∧
    ("f.fit" : String) ≠ "unknown" ∧
    filesAfter (processAndRoute envNoUser ["sink"] (fsSingle ["sink", "f.fit"] "data")
        ["sink", "f.fit"] "T" "20261012_120000")
      ["sink", "error", "f.fit", "f.fit"] = some "data" ∧
    filesAfter (processAndRoute envNoUser ["sink"] (fsSingle ["sink", "f.fit"] "data")
        ["sink", "f.fit"] "T" "20261012_120000")
      ["sink", "error", "unknown", "f.fit"] = none := by
  refine ⟨rfl, rfl, by decide, by decide, by decide⟩

/-- C2 (amended): for every file path on which address parsing fails, the
File Processor resolves the file as Errored with the raised message and the
Router places it in the error subtree under the best-effort owner directory,
which is `unknown` exactly when the marker is absent or is the final
segment; when exactly one segment follows the marker, that segment (the
filename itself) is used as the owner directory instead. -/
theorem parse_failure_errored_routing (env : Env) (sink parts : PathT) (fs : FS)
    (e iso now c : String)
    (hp : parseFilePath env.userStore parts = .error e)
    (hsrc : fs.files parts = some c)
    (hmk : ∀ q ∈ prefixesOf (sink ++ [ERROR_FOLDER_NAME, extractErrorUsername parts]),
      fs.files q = none)
    (hne : fs.files (sink ++ [ERROR_FOLDER_NAME, extractErrorUsername parts] ++
      [parts.getLastD ""]) = none)
    (hnd : fs.dirs (sink ++ [ERROR_FOLDER_NAME, extractErrorUsername parts] ++
      [parts.getLastD ""]) = false) :
    processFileOutcome env fs parts = .errored e ∧
    isOkE (processAndRoute env sink fs parts iso now) = true ∧
    filesAfter (processAndRoute env sink fs parts iso now)
      (sink ++ [ERROR_FOLDER_NAME, extractErrorUsername parts] ++
        [parts.getLastD ""]) = some c ∧
    filesAfter (processAndRoute env sink fs parts iso now) parts = none ∧
    (tupleIndex parts SINK_FOLDER_NAME = none → extractErrorUsername parts = "unknown") ∧
    (∀ j, tupleIndex parts SINK_FOLDER_NAME = some j → parts.length ≤ j + 1 →
      extractErrorUsername parts = "unknown") ∧
    (∀ j, tupleIndex parts SINK_FOLDER_NAME = some j → j + 1 < parts.length →
      extractErrorUsername parts = parts.getD (j + 1) "") := by
  have hout : processFileOutcome env fs parts = .errored e := by
    unfold processFileOutcome
    rw [hp]
  have hroute : processAndRoute env sink fs parts iso now =
      moveToError sink fs parts e iso now := processAndRoute_errored hout
  obtain ⟨h1, h2, h3, _, _⟩ := moveToError_clean sink parts fs e iso now c hsrc hmk hne hnd
  refine ⟨hout, by rw [hroute]; exact h1, by rw [hroute]; exact h2,
    by rw [hroute]; exact h3, ?_, ?_, ?_⟩
  · intro hidx
    unfold extractErrorUsername
    rw [hidx]
  · intro j hidx hlen
    unfold extractErrorUsername
    rw [hidx]
    dsimp only
    rw [if_neg (by omega)]
  · intro j hidx hlen
    unfold extractErrorUsername
    rw [hidx]
    dsimp only
    rw [if_pos (by omega)]

/-- Witness for C2 (amended): the drop `sink/f.fit` fails parsing and is
routed to `error/f.fit/f.fit` with its content intact. -/
theorem parse_failure_errored_routing_witness :
    processFileOutcome envNoUser (fsSingle ["sink", "f.fit"] "data") ["sink", "f.fit"] =
      .errored "Invalid path structure. Expected: sink/username/file or sink/username/sport_id/file" ∧
    filesAfter (processAndRoute envNoUser ["sink"] (fsSingle ["sink", "f.fit"] "data")
        ["sink", "f.fit"] "T" "20261012_120000")
      (["sink"] ++ [ERROR_FOLDER_NAME, extractErrorUsername ["sink", "f.fit"]] ++
        [(["sink", "f.fit"] : PathT).getLastD ""]) = some "data" := by
  obtain ⟨h1, _, h3, _⟩ := parse_failure_errored_routing envNoUser ["sink"] ["sink", "f.fit"]
    (fsSingle ["sink", "f.fit"] "data")
    "Invalid path structure. Expected: sink/username/file or sink/username/sport_id/file"
    "T" "20261012_120000" "data" rfl rfl (by decide) rfl rfl
  exact ⟨h1, h3⟩

theorem listIsPrefixOf_append (m t : List Char) : listIsPrefixOf m (m ++ t) = true := by
  induction m with
  | nil => rfl
  | cons c cs ih => simp [listIsPrefixOf, ih]

theorem occursIn_mid (pre m t : List Char) : occursIn m (pre ++ m ++ t) = true := by
  induction pre with
  | nil =>
    cases m with
    | nil =>
      cases t with
      | nil => rfl
      | cons c cs => simp [occursIn, listIsPrefixOf]
    | cons c cs =>
      simp only [occursIn, List.nil_append, Bool.or_eq_true]
      exact Or.inl (listIsPrefixOf_append (c :: cs) t)
  | cons p ps ih =>
    simp only [occursIn, List.cons_append, Bool.or_eq_true]
    exact Or.inr ih

theorem strContains_mid (a m b : String) : strContains (a ++ m ++ b) m = true := by
  unfold strContains
  have hd : (a ++ m ++ b).data = a.data ++ m.data ++ b.data := rfl
  rw [hd]
  exact occursIn_mid a.data m.data b.data

/-! Claim C3: resolution when the category does not exist. -/

/-- C3 counterexample: for the drop `sink/bob/3/ride.fit` with no sport 3,
the file is routed to `error/bob/` as the claim says, but the sidecar
message is `Sport ID 3 not found`, not `category 3 not found`. -/
theorem category_not_found_message_cex :
    processFileOutcome envNoSport (fsSingle ["sink", "bob", "3", "ride.fit"] "ridedata")
      ["sink", "bob", "3", "ride.fit"] = .errored "Sport ID 3 not found" ∧
    filesAfter (processAndRoute envNoSport ["sink"]
        (fsSingle ["sink", "bob", "3", "ride.fit"] "ridedata")
        ["sink", "bob", "3", "ride.fit"] "T" "20261012_120000")
      ["sink", "error", "bob", "ride.fit.error"] =
        some "Timestamp: T\nError: Sport ID 3 not found\n" ∧
    filesAfter (processAndRoute envNoSport ["sink"]
        (fsSingle ["sink", "bob", "3", "ride.fit"] "ridedata")
        ["sink", "bob", "3", "ride.fit"] "T" "20261012_120000")
      ["sink", "error", "bob", "ride.fit"] = some "ridedata" ∧
    strContains "Timestamp: T\nError: Sport ID 3 not found\n" "category 3 not found" = false := by
  refine ⟨by decide, by decide, by decide, by decide⟩

/-- C3 (amended): for every file whose parsed sport id has no corresponding
sport, processing resolves as Errored with the message
`Sport ID <id> not found` (the spec's abstract vocabulary renames sport to
category, but the concrete diagnostic written to the sidecar is the
source's), and the file ends in the error subtree under the owner extracted
from the path, with a sidecar containing that message. -/
theorem category_not_found_errored (env : Env) (sink parts : PathT) (fs : FS)
    (user : User) (sportId : Int) (iso now c : String)
    (hp : parseFilePath env.userStore parts = .ok (some user, sportId))
    (hs : env.sportStore sportId = false)
    (hsrc : fs.files parts = some c)
    (hmk : ∀ q ∈ prefixesOf (sink ++ [ERROR_FOLDER_NAME, extractErrorUsername parts]),
      fs.files q = none)
    (hne : fs.files (sink ++ [ERROR_FOLDER_NAME, extractErrorUsername parts] ++
      [parts.getLastD ""]) = none)
    (hnd : fs.dirs (sink ++ [ERROR_FOLDER_NAME, extractErrorUsername parts] ++
      [parts.getLastD ""]) = false)
    (hwf : fs.failWrite (sink ++ [ERROR_FOLDER_NAME, extractErrorUsername parts] ++
      [parts.getLastD "" ++ ".error"]) = false) :
    processFileOutcome env fs parts =
      .errored ("Sport ID " ++ toString sportId ++ " not found") ∧
    isOkE (processAndRoute env sink fs parts iso now) = true ∧
    filesAfter (processAndRoute env sink fs parts iso now)
      (sink ++ [ERROR_FOLDER_NAME, extractErrorUsername parts] ++
        [parts.getLastD ""]) = some c ∧
    filesAfter (processAndRoute env sink fs parts iso now)
      (sink ++ [ERROR_FOLDER_NAME, extractErrorUsername parts] ++
        [parts.getLastD "" ++ ".error"]) =
      some (sidecarContent iso ("Sport ID " ++ toString sportId ++ " not found")) ∧
    strContains (sidecarContent iso ("Sport ID " ++ toString sportId ++ " not found"))
      ("Sport ID " ++ toString sportId ++ " not found") = true := by
  have hout : processFileOutcome env fs parts =
      .errored ("Sport ID " ++ toString sportId ++ " not found") := by
    unfold processFileOutcome
    rw [hp]
    dsimp only
    rw [hs]
    rw [if_neg (by simp)]
  have hroute : processAndRoute env sink fs parts iso now =
      moveToError sink fs parts ("Sport ID " ++ toString sportId ++ " not found") iso now :=
    processAndRoute_errored hout
  obtain ⟨h1, h2, _, h4, _⟩ := moveToError_clean sink parts fs
    ("Sport ID " ++ toString sportId ++ " not found") iso now c hsrc hmk hne hnd
  exact ⟨hout, by rw [hroute]; exact h1, by rw [hroute]; exact h2,
    by rw [hroute]; exact h4 hwf,
    strContains_mid ("Timestamp: " ++ iso ++ "\n" ++ "Error: ")
      ("Sport ID " ++ toString sportId ++ " not found") "\n"⟩

/-- Witness for C3 (amended): concrete run for `sink/bob/3/ride.fit` with no
sport 3. -/
theorem category_not_found_errored_witness :
    processFileOutcome envNoSport (fsSingle ["sink", "bob", "3", "ride.fit"] "ridedata")
      ["sink", "bob", "3", "ride.fit"] =
      .errored ("Sport ID " ++ toString (3 : Int) ++ " not found") ∧
    filesAfter (processAndRoute envNoSport ["sink"]
        (fsSingle ["sink", "bob", "3", "ride.fit"] "ridedata")
        ["sink", "bob", "3", "ride.fit"] "T" "20261012_120000")
      (["sink"] ++ [ERROR_FOLDER_NAME, extractErrorUsername ["sink", "bob", "3", "ride.fit"]] ++
        [(["sink", "bob", "3", "ride.fit"] : PathT).getLastD "" ++ ".error"]) =
      some (sidecarContent "T" ("Sport ID " ++ toString (3 : Int) ++ " not found")) := by
  obtain ⟨h1, _, _, h4, _⟩ := category_not_found_errored envNoSport ["sink"]
    ["sink", "bob", "3", "ride.fit"] (fsSingle ["sink", "bob", "3", "ride.fit"] "ridedata")
    { username := "bob", suspended_at := none } 3 "T" "20261012_120000" "ridedata"
    rfl rfl rfl (by decide) rfl rfl rfl
  exact ⟨h1, h4⟩

/-! Claim C4: resolution when the owner does not exist. -/

/-- C4 counterexample: for the drop `sink/unknownuser/x.tcx` with no such
user, the file is routed under `error/unknownuser/` as the claim says, but
the diagnostic message is `Could not determine user`, not `owner not found`. -/
theorem owner_not_found_message_cex :
    processFileOutcome envNoUser (fsSingle ["sink", "unknownuser", "x.tcx"] "xdata")
      ["sink", "unknownuser", "x.tcx"] = .errored "Could not determine user" ∧
    filesAfter (processAndRoute envNoUser ["sink"]
        (fsSingle ["sink", "unknownuser", "x.tcx"] "xdata")
        ["sink", "unknownuser", "x.tcx"] "T" "20261012_120000")
      ["sink", "error", "unknownuser", "x.tcx.error"] =
        some "Timestamp: T\nError: Could not determine user\n" ∧
    filesAfter (processAndRoute envNoUser ["sink"]
        (fsSingle ["sink", "unknownuser", "x.tcx"] "xdata")
        ["sink", "unknownuser", "x.tcx"] "T" "20261012_120000")
      ["sink", "error", "unknownuser", "x.tcx"] = some "xdata" ∧
    strContains "Timestamp: T\nError: Could not determine user\n" "owner not found" = false := by
  refine ⟨by decide, by decide, by decide, by decide⟩

/-- C4 (amended): for every file whose owner identifier has no corresponding
user in the lookup store, processing resolves as Errored with the message
`Could not determine user` (not `owner not found`), and the file is routed
under the error subtree using the best-effort owner extracted from the path,
with a sidecar carrying that message. -/
theorem owner_absent_errored (env : Env) (sink parts : PathT) (fs : FS)
    (sportId : Int) (iso now c : String)
    (hp : parseFilePath env.userStore parts = .ok (none, sportId))
    (hsrc : fs.files parts = some c)
    (hmk : ∀ q ∈ prefixesOf (sink ++ [ERROR_FOLDER_NAME, extractErrorUsername parts]),
      fs.files q = none)
    (hne : fs.files (sink ++ [ERROR_FOLDER_NAME, extractErrorUsername parts] ++
      [parts.getLastD ""]) = none)
    (hnd : fs.dirs (sink ++ [ERROR_FOLDER_NAME, extractErrorUsername parts] ++
      [parts.getLastD ""]) = false)
    (hwf : fs.failWrite (sink ++ [ERROR_FOLDER_NAME, extractErrorUsername parts] ++
      [parts.getLastD "" ++ ".error"]) = false) :
    processFileOutcome env fs parts = .errored "Could not determine user" ∧
    isOkE (processAndRoute env sink fs parts iso now) = true ∧
    filesAfter (processAndRoute env sink fs parts iso now)
      (sink ++ [ERROR_FOLDER_NAME, extractErrorUsername parts] ++
        [parts.getLastD ""]) = some c ∧
    filesAfter (processAndRoute env sink fs parts iso now)
      (sink ++ [ERROR_FOLDER_NAME, extractErrorUsername parts] ++
        [parts.getLastD "" ++ ".error"]) =
      some (sidecarContent iso "Could not determine user") := by
  have hout : processFileOutcome env fs parts = .errored "Could not determine user" := by
    unfold processFileOutcome
    rw [hp]
  have hroute : processAndRoute env sink fs parts iso now =
      moveToError sink fs parts "Could not determine user" iso now :=
    processAndRoute_errored hout
  obtain ⟨h1, h2, _, h4, _⟩ := moveToError_clean sink parts fs
    "Could not determine user" iso now c hsrc hmk hne hnd
  exact ⟨hout, by rw [hroute]; exact h1, by rw [hroute]; exact h2,
    by rw [hroute]; exact h4 hwf⟩

/-- Witness for C4 (amended): concrete run for `sink/unknownuser/x.tcx` with
an empty user store. -/
theorem owner_absent_errored_witness :
    processFileOutcome envNoUser (fsSingle ["sink", "unknownuser", "x.tcx"] "xdata")
      ["sink", "unknownuser", "x.tcx"] = .errored "Could not determine user" ∧
    filesAfter (processAndRoute envNoUser ["sink"]
        (fsSingle ["sink", "unknownuser", "x.tcx"] "xdata")
        ["sink", "unknownuser", "x.tcx"] "T" "20261012_120000")
      (["sink"] ++ [ERROR_FOLDER_NAME, extractErrorUsername ["sink", "unknownuser", "x.tcx"]] ++
        [(["sink", "unknownuser", "x.tcx"] : PathT).getLastD ""]) = some "xdata" := by
  obtain ⟨h1, _, h3, _⟩ := owner_absent_errored envNoUser ["sink"]
    ["sink", "unknownuser", "x.tcx"] (fsSingle ["sink", "unknownuser", "x.tcx"] "xdata")
    1 "T" "20261012_120000" "xdata" rfl rfl (by decide) rfl rfl rfl
  exact ⟨h1, h3⟩

/-! Claim C5: whether the Outcome Router can raise. -/

/-- C5 counterexample: when a stray regular file occupies the destination
directory path `sink/error/bob`, `os.makedirs` — which `_move_file` runs
*outside* its `try` block — raises, and both `_move_file` and
`_move_to_error` propagate the exception to their caller, leaving no normal
return. -/
theorem router_raises_cex :
    isOkE (moveFile ["sink"] fsBlocked ["sink", "bob", "f.fit"]
      ERROR_FOLDER_NAME "bob" "20261012_120000") = false ∧
    isOkE (moveToError ["sink"] fsBlocked ["sink", "bob", "f.fit"]
      "m" "T" "20261012_120000") = false := by
  refine ⟨by decide, by decide⟩

/-- C5 (amended): the Router never raises *provided the destination
directory creation succeeds*: once `os.makedirs` returns normally, a failing
`shutil.move` and a failing sidecar write are both caught and logged, so
`_move_file` and `_move_to_error` return normally for every filesystem
state.  The uncovered step is `os.makedirs` itself, which is outside the
`try` and propagates its failure. -/
theorem router_no_raise_after_makedirs (sink parts : PathT) (fs : FS)
    (destType username msg iso now : String) :
    (isOkE (fs.makedirs (sink ++ [destType, username])) = true →
      isOkE (moveFile sink fs parts destType username now) = true) ∧
    (isOkE (fs.makedirs (sink ++ [ERROR_FOLDER_NAME, extractErrorUsername parts])) = true →
      isOkE (moveToError sink fs parts msg iso now) = true) := by
  have hmf : ∀ (fsx : FS) (dt u : String), isOkE (fsx.makedirs (sink ++ [dt, u])) = true →
      isOkE (moveFile sink fsx parts dt u now) = true := by
    intro fsx dt u h
    unfold moveFile
    dsimp only
    cases hm : fsx.makedirs (sink ++ [dt, u]) with
    | error e =>
      rw [hm] at h
      simp [isOkE] at h
    | ok fsA =>
      dsimp only
      cases fsA.move parts (if fsA.fsExists (sink ++ [dt, u] ++ [parts.getLastD ""]) then
          sink ++ [dt, u] ++ [(splitext (parts.getLastD "")).1 ++ "_" ++ now ++
            (splitext (parts.getLastD "")).2]
        else sink ++ [dt, u] ++ [parts.getLastD ""]) with
      | error e => rfl
      | ok fsB => rfl
  refine ⟨hmf fs destType username, ?_⟩
  intro h
  unfold moveToError
  dsimp only
  have h1 := hmf fs ERROR_FOLDER_NAME (extractErrorUsername parts) h
  cases hm : moveFile sink fs parts ERROR_FOLDER_NAME (extractErrorUsername parts) now with
  | error e =>
    rw [hm] at h1
    simp [isOkE] at h1
  | ok r =>
    dsimp only
    cases r with
    | mk fs1 dp =>
      dsimp only
      cases fs1.makedirs (sink ++ [ERROR_FOLDER_NAME, extractErrorUsername parts]) with
      | error e => rfl
      | ok fsB =>
        dsimp only
        cases fsB.write (sink ++ [ERROR_FOLDER_NAME, extractErrorUsername parts] ++
            [parts.getLastD "" ++ ".error"]) (sidecarContent iso msg) with
        | error e => rfl
        | ok fs2 => rfl

/-- Witness for C5 (amended): for a clean filesystem the makedirs
precondition holds and both router entry points return normally. -/
theorem router_no_raise_after_makedirs_witness :
    isOkE (moveToError ["sink"] (fsSingle ["sink", "bob", "f.fit"] "data")
      ["sink", "bob", "f.fit"] "m" "T" "20261012_120000") = true := by
  have h := router_no_raise_after_makedirs ["sink"] ["sink", "bob", "f.fit"]
    (fsSingle ["sink", "bob", "f.fit"] "data") ERROR_FOLDER_NAME "bob" "m" "T" "20261012_120000"
  exact h.2 (by decide)

/-! Claim C6: collision-safe naming when two files share a name. -/

/-- C6: moving two distinct same-named files to the same destination within
one invocation never overwrites the first: the second move sees the occupied
destination and lands under a name with the timestamp inserted before the
extension, and both contents remain recoverable at distinct paths. -/
theorem collision_no_overwrite (sink src1 src2 : PathT) (fs : FS)
    (dt u now1 now2 c1 c2 f : String)
    (hf1 : src1.getLastD "" = f) (hf2 : src2.getLastD "" = f)
    (hne12 : src1 ≠ src2)
    (hsrc1 : fs.files src1 = some c1) (hsrc2 : fs.files src2 = some c2)
    (hmk : ∀ q ∈ prefixesOf (sink ++ [dt, u]), fs.files q = none)
    (hne : fs.files (sink ++ [dt, u] ++ [f]) = none)
    (hnd : fs.dirs (sink ++ [dt, u] ++ [f]) = false)
    (hs2ne : src2 ≠ sink ++ [dt, u] ++ [f]) :
    ∃ fs1 fs2,
      moveFile sink fs src1 dt u now1 = .ok (fs1, sink ++ [dt, u] ++ [f]) ∧
      moveFile sink fs1 src2 dt u now2 = .ok (fs2, sink ++ [dt, u] ++
        [(splitext f).1 ++ "_" ++ now2 ++ (splitext f).2]) ∧
      sink ++ [dt, u] ++ [(splitext f).1 ++ "_" ++ now2 ++ (splitext f).2] ≠
        sink ++ [dt, u] ++ [f] ∧
      fs2.files (sink ++ [dt, u] ++ [f]) = some c1 ∧
      fs2.files (sink ++ [dt, u] ++
        [(splitext f).1 ++ "_" ++ now2 ++ (splitext f).2]) = some c2 := by
  subst hf1
  have hd2ne : sink ++ [dt, u] ++ [(splitext (src1.getLastD "")).1 ++ "_" ++ now2 ++
      (splitext (src1.getLastD "")).2] ≠ sink ++ [dt, u] ++ [src1.getLastD ""] := by
    apply append_singleton_ne_of_last
    apply strne_of_length
    have hc := splitext_concat (src1.getLastD "")
    have hlen := congrArg String.length hc
    rw [String.length_append] at hlen
    rw [String.length_append, String.length_append, String.length_append]
    have h1 : ("_" : String).length = 1 := rfl
    omega
  have h1 := moveFile_clean sink src1 fs dt u now1 c1 hsrc1 hmk hne hnd
  have h2 := moveFile_collision sink src2
    { files := fun q =>
        if q = sink ++ [dt, u] ++ [src1.getLastD ""] then some c1
        else if q = src1 then none else fs.files q,
      dirs := fun q => fs.dirs q || (prefixesOf (sink ++ [dt, u])).contains q,
      failWrite := fs.failWrite }
    dt u now2 c2
    (by
      dsimp only
      rw [if_neg hs2ne, if_neg (Ne.symm hne12)]
      exact hsrc2)
    (by
      intro q hq
      dsimp only
      have hq1 : q ≠ sink ++ [dt, u] ++ [src1.getLastD ""] := by
        intro h0
        have hL := mem_prefixesOf_length hq
        rw [h0] at hL
        simp at hL
      rw [if_neg hq1]
      by_cases hq2 : q = src1
      · rw [if_pos hq2]
      · rw [if_neg hq2]
        exact hmk q hq)
    (by
      dsimp only
      rw [hf2, if_pos rfl]
      rfl)
  rw [hf2] at h2
  refine ⟨_, _, h1, h2, hd2ne, ?_, ?_⟩
  · dsimp only
    rw [if_neg (Ne.symm hd2ne), if_neg (Ne.symm hs2ne), if_pos rfl]
  · dsimp only
    rw [if_pos rfl]

theorem splitLinesAux_append (l rest acc : List Char) (hl : ∀ ch ∈ l, ch ≠ '\n') :
    splitLinesAux acc (l ++ '\n' :: rest) = (acc.reverse ++ l) :: splitLinesAux [] rest := by
  induction l generalizing acc with
  | nil => simp [splitLinesAux]
  | cons c cs ih =>
    have hc : c ≠ '\n' := hl c (by simp)
    have hstep : splitLinesAux acc ((c :: cs) ++ '\n' :: rest) =
        splitLinesAux (c :: acc) (cs ++ '\n' :: rest) := by
      simp only [List.cons_append, splitLinesAux]
      rw [if_neg hc]
      rfl
    rw [hstep, ih (c :: acc) (fun ch h => hl ch (by simp [h]))]
    simp

theorem strMk_data (s : String) : String.mk s.data = s := rfl

theorem textLines_two (x y : String)
    (hx : ∀ ch ∈ x.data, ch ≠ '\n') (hy : ∀ ch ∈ y.data, ch ≠ '\n') :
    textLines (x ++ "\n" ++ y ++ "\n") = [x, y] := by
  unfold textLines
  have hd : (x ++ "\n" ++ y ++ "\n").data = x.data ++ '\n' :: (y.data ++ '\n' :: []) := by
    show ((x.data ++ ['\n']) ++ y.data) ++ ['\n'] = _
    simp
  rw [hd]
  dsimp only
  rw [splitLinesAux_append x.data (y.data ++ '\n' :: []) [] hx]
  rw [splitLinesAux_append y.data [] [] hy]
  simp [splitLinesAux, strMk_data]

/-! Claim C7: the diagnostic sidecar. -/

/-- C7 counterexample: when the diagnostic message itself contains a newline
(error messages are stringified exceptions, which may span lines), the
sidecar written for it has three lines, not exactly two. -/
theorem sidecar_two_lines_cex :
    filesAfter (moveToError ["sink"] (fsSingle ["sink", "bob", "f.fit"] "data")
        ["sink", "bob", "f.fit"] "boom\nline2" "T" "20261012_120000")
      ["sink", "error", "bob", "f.fit.error"] =
      some "Timestamp: T\nError: boom\nline2\n" ∧
    textLines "Timestamp: T\nError: boom\nline2\n" =
      ["Timestamp: T", "Error: boom", "line2"] ∧
    (textLines "Timestamp: T\nError: boom\nline2\n").length ≠ 2 := by
  refine ⟨by decide, by decide, by decide⟩

/-- C7 (amended): for every Errored resolution the router writes a sidecar
at `{destination}/{filename}.error` whose content is exactly
`Timestamp: <iso>\nError: <message>\n` — two lines whenever the timestamp
and the message contain no newline (a message with embedded newlines yields
more) — and a sidecar write failure is swallowed and never prevents or
undoes the file move. -/
theorem sidecar_written_spec (sink filePath : PathT) (fs : FS) (msg iso now c : String)
    (hsrc : fs.files filePath = some c)
    (hmk : ∀ q ∈ prefixesOf (sink ++ [ERROR_FOLDER_NAME, extractErrorUsername filePath]),
      fs.files q = none)
    (hne : fs.files (sink ++ [ERROR_FOLDER_NAME, extractErrorUsername filePath] ++
      [filePath.getLastD ""]) = none)
    (hnd : fs.dirs (sink ++ [ERROR_FOLDER_NAME, extractErrorUsername filePath] ++
      [filePath.getLastD ""]) = false) :
    isOkE (moveToError sink fs filePath msg iso now) = true ∧
    filesAfter (moveToError sink fs filePath msg iso now)
      (sink ++ [ERROR_FOLDER_NAME, extractErrorUsername filePath] ++
        [filePath.getLastD ""]) = some c ∧
    (fs.failWrite (sink ++ [ERROR_FOLDER_NAME, extractErrorUsername filePath] ++
        [filePath.getLastD "" ++ ".error"]) = false →
      filesAfter (moveToError sink fs filePath msg iso now)
        (sink ++ [ERROR_FOLDER_NAME, extractErrorUsername filePath] ++
          [filePath.getLastD "" ++ ".error"]) = some (sidecarContent iso msg)) ∧
    (fs.failWrite (sink ++ [ERROR_FOLDER_NAME, extractErrorUsername filePath] ++
        [filePath.getLastD "" ++ ".error"]) = true →
      filesAfter (moveToError sink fs filePath msg iso now)
        (sink ++ [ERROR_FOLDER_NAME, extractErrorUsername filePath] ++
          [filePath.getLastD "" ++ ".error"]) =
        fs.files (sink ++ [ERROR_FOLDER_NAME, extractErrorUsername filePath] ++
          [filePath.getLastD "" ++ ".error"])) ∧
    ((∀ ch ∈ iso.data, ch ≠ '\n') → (∀ ch ∈ msg.data, ch ≠ '\n') →
      textLines (sidecarContent iso msg) = ["Timestamp: " ++ iso, "Error: " ++ msg]) := by
  obtain ⟨h1, h2, _, h4, h5⟩ := moveToError_clean sink filePath fs msg iso now c hsrc hmk hne hnd
  refine ⟨h1, h2, h4, h5, ?_⟩
  intro hiso hmsg
  have hshape : sidecarContent iso msg =
      ("Timestamp: " ++ iso) ++ "\n" ++ ("Error: " ++ msg) ++ "\n" := by
    unfold sidecarContent
    rw [String.append_assoc ("Timestamp: " ++ iso ++ "\n") "Error: " msg]
  rw [hshape]
  apply textLines_two
  · intro ch hch
    rcases List.mem_append.mp hch with h | h
    · have hall : ∀ x ∈ ("Timestamp: " : String).data, x ≠ '\n' := by decide
      exact hall ch h
    · exact hiso ch h
  · intro ch hch
    rcases List.mem_append.mp hch with h | h
    · have hall : ∀ x ∈ ("Error: " : String).data, x ≠ '\n' := by decide
      exact hall ch h
    · exact hmsg ch h

/-- Witness for C7 (amended): concrete sidecar for message `boom`. -/
theorem sidecar_written_spec_witness :
    filesAfter (moveToError ["sink"] (fsSingle ["sink", "bob", "f.fit"] "data")
        ["sink", "bob", "f.fit"] "boom" "T" "20261012_120000")
      (["sink"] ++ [ERROR_FOLDER_NAME, extractErrorUsername ["sink", "bob", "f.fit"]] ++
        [(["sink", "bob", "f.fit"] : PathT).getLastD "" ++ ".error"]) =
      some (sidecarContent "T" "boom") ∧
    textLines (sidecarContent "T" "boom") = ["Timestamp: " ++ "T", "Error: " ++ "boom"] := by
  obtain ⟨_, _, h3, _, h5⟩ := sidecar_written_spec ["sink"] ["sink", "bob", "f.fit"]
    (fsSingle ["sink", "bob", "f.fit"] "data") "boom" "T" "20261012_120000" "data"
    rfl (by decide) rfl rfl
  exact ⟨h3 rfl, h5 (by decide) (by decide)⟩

theorem dropLast_cons_of_ne_nil {p : PathT} (n : String) (h : p ≠ []) :
    (n :: p).dropLast = n :: p.dropLast := by
  cases p with
  | nil => exact absurd rfl h
  | cons a as => rfl

theorem mem_allSubdirs_ne_nil : ∀ (l : List (String × DirTree)) (p : PathT),
    p ∈ allSubdirs l → p ≠ []
  | [], p, h => by simp [allSubdirs] at h
  | (name, sub) :: rest, p, h => by
    rw [allSubdirs] at h
    rcases List.mem_append.mp h with h | h
    · obtain ⟨p1, _, rfl⟩ := List.mem_map.mp h
      simp
    · exact mem_allSubdirs_ne_nil rest p h

theorem mem_allTree_ne_nil (t : DirTree) (p : PathT) (h : p ∈ allTree t) : p ≠ [] := by
  cases t with
  | node subdirs files =>
    rw [allTree] at h
    rcases List.mem_append.mp h with h | h
    · obtain ⟨f, _, rfl⟩ := List.mem_map.mp h
      simp
    · exact mem_allSubdirs_ne_nil subdirs p h

mutual

theorem mem_walkTree_iff : ∀ (t : DirTree) (p : PathT),
    p ∈ walkTree t ↔ (p ∈ allTree t ∧ p.dropLast.all keepDir = true)
  | .node subdirs files, p => by
    rw [walkTree, allTree]
    rw [List.mem_append, List.mem_append]
    constructor
    · intro h
      rcases h with h | h
      · refine ⟨Or.inl h, ?_⟩
        obtain ⟨f, hf, rfl⟩ := List.mem_map.mp h
        simp
      · have hsub := (mem_walkSubdirs_iff subdirs p).mp h
        exact ⟨Or.inr hsub.1, hsub.2⟩
    · rintro ⟨h1, h2⟩
      rcases h1 with h | h
      · exact Or.inl h
      · exact Or.inr ((mem_walkSubdirs_iff subdirs p).mpr ⟨h, h2⟩)

theorem mem_walkSubdirs_iff : ∀ (l : List (String × DirTree)) (p : PathT),
    p ∈ walkSubdirs l ↔ (p ∈ allSubdirs l ∧ p.dropLast.all keepDir = true)
  | [], p => by simp [walkSubdirs, allSubdirs]
  | (name, sub) :: rest, p => by
    rw [walkSubdirs, allSubdirs]
    rw [List.mem_append, List.mem_append]
    constructor
    · intro h
      rcases h with h | h
      · by_cases hk : keepDir name = true
        · rw [if_pos hk] at h
          obtain ⟨p1, hp1, rfl⟩ := List.mem_map.mp h
          have hw := (mem_walkTree_iff sub p1).mp hp1
          have hnn : p1 ≠ [] := mem_allTree_ne_nil sub p1 hw.1
          refine ⟨Or.inl (List.mem_map.mpr ⟨p1, hw.1, rfl⟩), ?_⟩
          rw [dropLast_cons_of_ne_nil name hnn, List.all_cons, hk, hw.2]
          rfl
        · rw [if_neg hk] at h
          exact absurd h (List.not_mem_nil p)
      · have hrest := (mem_walkSubdirs_iff rest p).mp h
        exact ⟨Or.inr hrest.1, hrest.2⟩
    · rintro ⟨h1, h2⟩
      rcases h1 with h | h
      · obtain ⟨p1, hp1, rfl⟩ := List.mem_map.mp h
        have hnn : p1 ≠ [] := mem_allTree_ne_nil sub p1 hp1
        rw [dropLast_cons_of_ne_nil name hnn, List.all_cons] at h2
        have hk : keepDir name = true := by
          cases hkk : keepDir name
          · rw [hkk] at h2
            simp at h2
          · rfl
        have hpd : p1.dropLast.all keepDir = true := by
          rw [hk] at h2
          simpa using h2
        refine Or.inl ?_
        rw [if_pos hk]
        exact List.mem_map.mpr ⟨p1, (mem_walkTree_iff sub p1).mpr ⟨hp1, hpd⟩, rfl⟩
      · exact Or.inr ((mem_walkSubdirs_iff rest p).mpr ⟨h, h2⟩)

end

/-! Claim C8: the recovery sweep's exclusions and count. -/

/-- C8 counterexample: the sweep prunes every directory named `error` (or
`processed`) at *any* depth, not only the two reserved top-level subtrees:
the allowed-extension file at `alice/error/f.gpx` is under neither top-level
reserved subtree, yet the sweep does not process it and returns count 0. -/
theorem sweep_exclusion_cex :
    ["alice", "error", "f.gpx"] ∈
      allTree (.node [("alice", .node [("error", .node [] ["f.gpx"])] [])] []) ∧
    extAllowedB "f.gpx" = true ∧
    (["alice", "error", "f.gpx"] : PathT).headD "" ≠ PROCESSED_FOLDER_NAME ∧
    (["alice", "error", "f.gpx"] : PathT).headD "" ≠ ERROR_FOLDER_NAME ∧
    ["alice", "error", "f.gpx"] ∉
      sweepProcessed (.node [("alice", .node [("error", .node [] ["f.gpx"])] [])] []) ∧
    processExistingFiles (.node [("alice", .node [("error", .node [] ["f.gpx"])] [])] []) = 0 := by
  refine ⟨by decide, by decide, by decide, by decide, by decide, by decide⟩

/-- C8 (amended): the sweep walks the tree pruning every directory named
`processed` or `error` at any depth (in particular it never visits the two
reserved top-level subtrees, so a stray allowed-extension file directly
under `processed/` is not reprocessed); it invokes the File Processor on
exactly the surviving files whose extension is allowed, and returns their
count. -/
theorem sweep_processes_exactly (t : DirTree) (p : PathT) :
    (p ∈ sweepProcessed t ↔
      p ∈ allTree t ∧ p.dropLast.all keepDir = true ∧ extAllowedB (p.getLastD "") = true) ∧
    processExistingFiles t = (sweepProcessed t).length := by
  refine ⟨?_, rfl⟩
  unfold sweepProcessed
  rw [List.mem_filter, mem_walkTree_iff]
  constructor
  · rintro ⟨⟨h1, h2⟩, h3⟩
    exact ⟨h1, h2, h3⟩
  · rintro ⟨h1, h2, h3⟩
    exact ⟨⟨h1, h2⟩, h3⟩

/-- Witness for C8 (amended): a clean file under an owner directory is swept. -/
theorem sweep_processes_exactly_witness :
    ["alice", "a.gpx"] ∈ sweepProcessed (.node [("alice", .node [] ["a.gpx"])] []) := by
  have h := sweep_processes_exactly (.node [("alice", .node [] ["a.gpx"])] []) ["alice", "a.gpx"]
  exact h.1.mpr ⟨by decide, by decide, by decide⟩

/-! Claim C10: the live event handler applies no subtree exclusion. -/

/-- C10: for every non-directory creation event with an allowed extension,
wherever the file lies under the watched root — including under the
`processed/` and `error/` subtrees — `on_created` forwards it to the File
Processor: the handler's guard looks only at `is_directory` and the
extension, never at the directory components. -/
theorem on_created_no_exclusion (dirParts : PathT) (fname : String)
    (h : extAllowedB fname = true) :
    onCreatedProcesses false (dirParts ++ [fname]) = true := by
  unfold onCreatedProcesses
  rw [if_neg (by simp)]
  rw [getLastD_append_singleton]
  exact h

/-- Witness for C10: files created under `processed/` and `error/` are both
forwarded by the live handler. -/
theorem on_created_no_exclusion_witness :
    onCreatedProcesses false (["sink", "processed", "alice"] ++ ["f.gpx"]) = true ∧
    onCreatedProcesses false (["sink", "error", "bob"] ++ ["ride.fit"]) = true :=
  ⟨on_created_no_exclusion ["sink", "processed", "alice"] "f.gpx" (by decide),
    on_created_no_exclusion ["sink", "error", "bob"] "ride.fit" (by decide)⟩

/-- Witness for C6: two drops both named `f.fit` for the same owner; the
first lands at `processed/bob/f.fit`, the second at a timestamped name, and
both contents survive. -/
theorem collision_no_overwrite_witness :
    ∃ fs1 fs2,
      moveFile ["sink"] fsTwo ["sink", "bob", "f.fit"] "processed" "bob" "20261012_120000" =
        .ok (fs1, ["sink"] ++ ["processed", "bob"] ++ ["f.fit"]) ∧
      moveFile ["sink"] fs1 ["sink", "bob", "5", "f.fit"] "processed" "bob" "20261012_120001" =
        .ok (fs2, ["sink"] ++ ["processed", "bob"] ++
          [(splitext "f.fit").1 ++ "_" ++ "20261012_120001" ++ (splitext "f.fit").2]) ∧
      ["sink"] ++ ["processed", "bob"] ++
          [(splitext "f.fit").1 ++ "_" ++ "20261012_120001" ++ (splitext "f.fit").2] ≠
        ["sink"] ++ ["processed", "bob"] ++ ["f.fit"] ∧
      fs2.files (["sink"] ++ ["processed", "bob"] ++ ["f.fit"]) = some "one" ∧
      fs2.files (["sink"] ++ ["processed", "bob"] ++
        [(splitext "f.fit").1 ++ "_" ++ "20261012_120001" ++ (splitext "f.fit").2]) =
        some "two" :=
  collision_no_overwrite ["sink"] ["sink", "bob", "f.fit"] ["sink", "bob", "5", "f.fit"]
    fsTwo "processed" "bob" "20261012_120000" "20261012_120001" "one" "two" "f.fit"
    (by decide) (by decide) (by decide) (by decide) (by decide) (by decide)
    (by decide) (by decide) (by decide)
